import Mathlib

/-! Grainlify backend: bootstrap sequence and migration runner.

A shallow embedding of

* `backend/internal/migrate/migrate.go`: `Up` and `contains`;
* `backend/cmd/api/main.go`: `main`.

Go strings are modelled as Lean strings (sequences of Unicode code points,
that is, well-formed UTF-8), Go `error` values by `GoError`, and the calls a
run makes on its collaborators by a trace of `Event`s.  A deferred call is an
event that `main` keeps on a stack: it is run when `main` returns and is
dropped when the process ends through `os.Exit`.  The `select` of `main` is
decided by the order in which values arrive on its two channels.  The collaborators themselves (the migration engine,
`db.Connect`, `natsbus.Connect`, the HTTP server, the operating system's
signals) are not part of the two files; what they return is a parameter of the
model (`Engine`, `World`), over which the theorems quantify.
-/

namespace Grainlify

/-! ## Errors -/

/-- A Go `error` value that is not `nil`.  `ErrNoChange` is the sentinel
`migrate.ErrNoChange`, which the code recognises by identity (`==`); every
other error value is known by its text only. -/
inductive GoError where
  | ErrNoChange
  | other (text : String)
  deriving DecidableEq, Repr

/-- The method `err.Error()`. -/
def GoError.Error : GoError → String
  | .ErrNoChange => "no change"
  | .other text => text

/-- The error built by `fmt.Errorf(pfx + "%w", err)`: its text is the prefix
followed by the text of the wrapped error. -/
def wrapError (pfx : String) (err : GoError) : GoError :=
  .other (pfx ++ err.Error)

/-! ## `strings.ToLower`, `strings.Contains`, `contains` -/

/-- The rune mapping `unicode.ToLower`: on ASCII it adds `'a' - 'A'` to the
letters `'A'..'Z'` and leaves every other rune alone; above ASCII it looks the
rune up in the Unicode case tables, which are the parameter `uni`. -/
def unicodeToLower (uni : Char → Char) (r : Char) : Char :=
  if r.toNat ≤ 127 then
    if 65 ≤ r.toNat ∧ r.toNat ≤ 90 then Char.ofNat (r.toNat + 32) else r
  else uni r

/-- The function `strings.ToLower`, rune by rune. -/
def ToLower (uni : Char → Char) (s : String) : List Char :=
  s.data.map (unicodeToLower uni)

/-- The function `strings.Contains` on rune sequences: `sub` occurs in `s` as
a contiguous block. -/
def Contains (s sub : List Char) : Bool :=
  s.tails.any (fun t => sub.isPrefixOf t)

/-- The helper `contains` (migrate.go:161):
`strings.Contains(strings.ToLower(s), strings.ToLower(substr))`. -/
def contains (uni : Char → Char) (s substr : String) : Bool :=
  Contains (ToLower uni s) (ToLower uni substr)

/-! ## Events -/

/-- One nanosecond is the unit of `time.Duration`; this is `time.Second`. -/
def Second : Nat := 1000000000

/-- This is `time.Millisecond`. -/
def Millisecond : Nat := 1000000

/-- A connection pool, `*pgxpool.Pool`, when it is not `nil`. -/
structure Pool where
  id : Nat
  deriving DecidableEq, Repr

/-- The struct `db.DB`: the field read by `main` is `Pool`, a pointer that may
be `nil` (`none`). -/
structure DB where
  Pool : Option Pool
  deriving DecidableEq, Repr

/-- The calls on collaborators that a run of `Up` or of `main` performs, in
program order. -/
inductive Event where
  /-- Call of `stdlib.OpenDB` (migrate.go:36). -/
  | openDB
  /-- Call of `m.Version()` (migrate.go:71 and :147). -/
  | readVersion
  /-- The statement `SET lock_timeout = '30s'` (migrate.go:90). -/
  | setLockTimeout
  /-- Call of `time.Sleep(d)`, `d` in nanoseconds. -/
  | sleep (d : Nat)
  /-- Call of `m.Up()` in the given attempt (migrate.go:111). -/
  | apply (attempt : Nat)
  /-- Deferred `m.Close()` (migrate.go:65). -/
  | migratorClose
  /-- Deferred `sqlDB.Close()` (migrate.go:37). -/
  | sqlDBClose
  /-- Call of `db.Connect` (main.go:65). -/
  | dbConnect
  /-- Call of `migrate.Up` (main.go:87). -/
  | migrateUp
  /-- Call of `natsbus.Connect` (main.go:106). -/
  | natsConnect
  /-- Call of `api.New` with the database handle and whether a bus is passed
  (main.go:125). -/
  | apiNew (database : Option DB) (bus : Bool)
  /-- The goroutine running `worker.Run` is started (main.go:133). -/
  | workerStart
  /-- The goroutine running `app.Listen` is started (main.go:155). -/
  | listenStart
  /-- The `select` takes the branch `sig := <-sigCh` (main.go:174). -/
  | signalReceived
  /-- The `select` takes the branch `err := <-errCh` (main.go:176). -/
  | serverExited (err : Option GoError)
  /-- Call of `api.Shutdown` under a context of the given timeout
  (main.go:186-189). -/
  | apiShutdown (timeout : Nat)
  /-- Deferred `cancel()` of the shutdown context (main.go:187). -/
  | cancelShutdownCtx
  /-- Deferred `eventBus.Close()` (main.go:116). -/
  | busClose
  /-- Deferred `database.Close()` (main.go:78). -/
  | dbClose
  deriving DecidableEq, Repr

/-- The durations slept, in order. -/
def waits : List Event → List Nat
  | [] => []
  | .sleep d :: es => d :: waits es
  | _ :: es => waits es

/-- The number of calls of `m.Up()`. -/
def attempts : List Event → Nat
  | [] => 0
  | .apply _ :: es => attempts es + 1
  | _ :: es => attempts es

/-! ## `migrate.Up` -/

/-- What the migration engine answers during one run of `Up`. -/
structure Engine where
  /-- Error of `iofs.New`, if any. -/
  sourceErr : Option GoError
  /-- Error of `postgres.WithInstance`, if any. -/
  driverErr : Option GoError
  /-- Error of `migrate.NewWithInstance`, if any. -/
  migratorErr : Option GoError
  /-- Result of the call of `m.Up()` made in attempt `k`. -/
  apply : Nat → Option GoError

/-- The test of migrate.go:119 on the error text. -/
def isLockError (uni : Char → Char) (errStr : String) : Bool :=
  contains uni errStr "timeout" || contains uni errStr "lock" ||
    contains uni errStr "can't acquire"

/-- The loop `for attempt := 1; attempt <= maxRetries; attempt++` of
migrate.go:100-131, entered at `attempt` with the local `lastErr` and the
trace so far.  The recursion is on `fuel`, which the hypothesis keeps at least
as large as the number of iterations left, so the base case is reached only
when the loop condition is false.  The wait is
`time.Duration(attempt-1) * 5 * time.Second`, a 64-bit count of nanoseconds;
for the three attempts of `Up` it is at most 10^10, so no wrap-around
occurs and natural numbers are exact. -/
def retryLoop (uni : Char → Char) (apply : Nat → Option GoError) (maxRetries : Nat) :
    (fuel attempt : Nat) → maxRetries + 1 - attempt ≤ fuel →
    Option GoError → List Event → Option GoError × List Event
  | 0, _, _, lastErr, tr => (lastErr, tr)
  | fuel + 1, attempt, h, lastErr, tr =>
    if attempt ≤ maxRetries then
      let tr := if attempt > 1 then tr ++ [Event.sleep ((attempt - 1) * 5 * Second)] else tr
      let tr := tr ++ [Event.apply attempt]
      match apply attempt with
      | none => (none, tr)
      | some err =>
        if err = GoError.ErrNoChange then (some err, tr)
        else if attempt < maxRetries ∧ isLockError uni err.Error = true then
          retryLoop uni apply maxRetries fuel (attempt + 1) (by omega) (some err) tr
        else (some err, tr)
    else (lastErr, tr)

/-- The function `Up` (migrate.go:19): the error returned (`none` is `nil`)
and the calls made.  `pool` is the argument `pool`, `none` when it is `nil`. -/
def Up (uni : Char → Char) (eng : Engine) (pool : Option Pool) :
    Option GoError × List Event :=
  match pool with
  | none => (some (.other "db pool is nil"), [])
  | some _ =>
    match eng.sourceErr with
    | some err => (some (wrapError "open embedded migrations: " err), [])
    | none =>
      match eng.driverErr with
      | some err =>
        (some (wrapError "create postgres migration driver: " err),
          [Event.openDB, Event.sqlDBClose])
      | none =>
        match eng.migratorErr with
        | some err =>
          (some (wrapError "create migrator: " err), [Event.openDB, Event.sqlDBClose])
        | none =>
          let tr := [Event.openDB, Event.readVersion, Event.setLockTimeout]
          let maxRetries := 3
          let (lastErr, tr) := retryLoop uni eng.apply maxRetries maxRetries 1 (by omega) none tr
          match lastErr with
          | some .ErrNoChange => (none, tr ++ [Event.migratorClose, Event.sqlDBClose])
          | some err => (some err, tr ++ [Event.migratorClose, Event.sqlDBClose])
          | none =>
            (none, tr ++ [Event.readVersion, Event.migratorClose, Event.sqlDBClose])

/-! ## `main` -/

/-- The fields of `config.Config` that `main` branches on. -/
structure Config where
  DBURL : String
  Env : String
  AutoMigrate : Bool
  NATSURL : String
  HTTPAddr : String

/-- The outcome of the `select` of main.go:173. -/
inductive Race where
  /-- The branch `case sig := <-sigCh` is taken. -/
  | signal
  /-- The branch `case err := <-errCh` is taken, with the value received. -/
  | served (err : Option GoError)
  /-- Neither channel ever delivers: `main` stays blocked. -/
  | blocked
  deriving DecidableEq, Repr

/-- What the collaborators of `main` answer during one run. -/
structure World where
  /-- Result of `db.Connect`. -/
  dbConnect : Except GoError DB
  /-- Answers of the migration engine inside `migrate.Up`. -/
  engine : Engine
  /-- Error of `natsbus.Connect`, if any. -/
  natsConnect : Option GoError
  /-- When `app.Listen` returns and with which value; the goroutine of
  main.go:155 sends that value on the buffered channel `errCh` at that time.
  `none`: it never returns. -/
  listenResult : Option (Nat × Option GoError)
  /-- When the first termination signal is delivered on `sigCh`.  `none`: no
  signal is ever delivered.  A signal that comes before `signal.Notify`
  (main.go:171) is not delivered on `sigCh`: it ends the process by its
  default action, and such runs are not runs of this model. -/
  signalAt : Option Nat
  /-- When `main` reaches the `select`. -/
  selectAt : Nat
  /-- The pseudo-random choice of the `select` when both channels can
  proceed: `true` for `sigCh`. -/
  pickSignal : Bool
  /-- Error of `api.Shutdown`, if any. -/
  shutdown : Option GoError

/-- A run of `main`: the calls made, in order, and the exit code of the
process (`none` while it has not ended). -/
structure Run where
  trace : List Event
  exit : Option Nat
  deriving DecidableEq, Repr

/-- The call `os.Exit(code)`: the process ends at once; the deferred calls of
`main` are not run. -/
def osExit (tr : List Event) (code : Nat) : Run :=
  { trace := tr, exit := some code }

/-- The function `main` returns: its deferred calls run, last registered
first, and the process ends with code 0.  `defers` holds the deferred calls,
last registered first. -/
def returnFromMain (tr defers : List Event) : Run :=
  { trace := tr ++ defers, exit := some 0 }

/-- The `select` of main.go:173-183, a Go `select` without default: when it
starts (`selectAt`) it takes a branch whose channel holds a value, choosing
by `pickSignal` if both do; when neither does it waits for the first value to
arrive.  Times are logical: only their order matters. -/
def selectBranch (w : World) : Race :=
  match w.listenResult, w.signalAt with
  | none, none => .blocked
  | some (_, err), none => .served err
  | none, some _ => .signal
  | some (te, err), some ts =>
    let now := max w.selectAt (min te ts)
    if te ≤ now ∧ ts ≤ now then
      if w.pickSignal then .signal else .served err
    else if ts ≤ now then .signal
    else .served err

/-- The condition of main.go:130. -/
def workerCondition (cfg : Config) (database : Option DB) : Bool :=
  cfg.NATSURL == "" &&
    match database with
    | none => false
    | some d => d.Pool.isSome

/-- The part of `main` from main.go:124 to the end: `api.New`, the worker,
the serving goroutine, the `select` and the shutdown.  `bus` tells whether
`eventBus` is set. -/
def serve (cfg : Config) (w : World) (database : Option DB) (bus : Bool)
    (tr defers : List Event) : Run :=
  let tr := tr ++ [Event.apiNew database bus]
  let tr := if workerCondition cfg database then tr ++ [Event.workerStart] else tr
  let tr := tr ++ [Event.listenStart, Event.sleep (100 * Millisecond)]
  match selectBranch w with
  | .blocked => { trace := tr, exit := none }
  | .served err => osExit (tr ++ [Event.serverExited err]) 1
  | .signal =>
    let tr := tr ++ [Event.signalReceived]
    let defers := Event.cancelShutdownCtx :: defers
    let tr := tr ++ [Event.apiShutdown (5 * Second)]
    match w.shutdown with
    | some _ => osExit tr 1
    | none => returnFromMain tr defers

/-- The part of `main` from main.go:102 to the end: the bus connection, then
`serve`. -/
def connectBus (cfg : Config) (w : World) (database : Option DB)
    (tr defers : List Event) : Run :=
  if cfg.NATSURL ≠ "" then
    let tr := tr ++ [Event.natsConnect]
    match w.natsConnect with
    | some _ => osExit tr 1
    | none => serve cfg w database true tr (Event.busClose :: defers)
  else serve cfg w database false tr defers

/-- The function `main` (main.go:21). -/
def main (uni : Char → Char) (cfg : Config) (w : World) : Run :=
  if cfg.DBURL = "" then
    if cfg.Env ≠ "dev" then osExit [] 1
    else connectBus cfg w none [] []
  else
    let tr := [Event.dbConnect]
    match w.dbConnect with
    | .error _ => osExit tr 1
    | .ok d =>
      let defers := [Event.dbClose]
      if cfg.AutoMigrate then
        let (err, mtr) := Up uni w.engine d.Pool
        let tr := tr ++ [Event.migrateUp] ++ mtr
        match err with
        | some _ => osExit tr 1
        | none => connectBus cfg w (some d) tr defers
      else connectBus cfg w (some d) tr defers

/-! ## Classes of events -/

/-- The events that `Up` can produce. -/
def isMigrationEvent : Event → Bool
  | .openDB | .readVersion | .setLockTimeout | .sleep _ | .apply _
  | .migratorClose | .sqlDBClose => true
  | _ => false

/-- The events that `serve` itself adds to the trace, deferred calls apart. -/
@[simp]
def isServeEvent : Event → Bool
  | .apiNew _ _ | .workerStart | .listenStart | .sleep _ | .signalReceived
  | .serverExited _ | .apiShutdown _ | .cancelShutdownCtx => true
  | _ => false

/-- The events that `main` produces before `api.New`: the connections, the
call of `migrate.Up` and what `Up` does. -/
@[simp]
def isBootEvent : Event → Bool
  | .dbConnect | .migrateUp | .natsConnect => true
  | e => isMigrationEvent e

/-- The events that follow the `select` of `main`. -/
@[simp]
def isShutdownEvent : Event → Bool
  | .signalReceived | .serverExited _ | .apiShutdown _ | .cancelShutdownCtx => true
  | _ => false

/-! ## Concrete runs -/

/-- A production configuration with a database and a bus, migrations off. -/
def cfgProdBus : Config :=
  { DBURL := "postgres://db/app", Env := "production", AutoMigrate := false,
    NATSURL := "nats://bus:4222", HTTPAddr := ":8080" }

/-- A production configuration with a database, no bus, migrations on. -/
def cfgProdMigrate : Config :=
  { DBURL := "postgres://db/app", Env := "production", AutoMigrate := true,
    NATSURL := "", HTTPAddr := ":8080" }

/-- A production configuration with a database, no bus, migrations off. -/
def cfgProdPlain : Config :=
  { DBURL := "postgres://db/app", Env := "production", AutoMigrate := false,
    NATSURL := "", HTTPAddr := ":8080" }

/-- A development configuration without database, with a bus. -/
def cfgDevBus : Config :=
  { DBURL := "", Env := "dev", AutoMigrate := true,
    NATSURL := "nats://bus:4222", HTTPAddr := ":8080" }

/-- A production configuration without database. -/
def cfgProdNoDB : Config :=
  { DBURL := "", Env := "production", AutoMigrate := true,
    NATSURL := "nats://bus:4222", HTTPAddr := ":8080" }

/-- The engine whose setup succeeds and whose calls of `m.Up()` answer from
the given list, `nil` once it is used up. -/
def engineOf (answers : List (Option GoError)) : Engine :=
  { sourceErr := none, driverErr := none, migratorErr := none,
    apply := fun k => (answers.getD (k - 1) none) }

/-- Both connections succeed, the serving loop fails and no signal is ever
delivered. -/
def worldServeFails : World :=
  { dbConnect := .ok { Pool := some { id := 1 } }, engine := engineOf [],
    natsConnect := none,
    listenResult := some (5, some (.other "listen tcp :8080: bind: address already in use")),
    signalAt := none, selectAt := 100, pickSignal := false,
    shutdown := none }

/-- Both connections succeed; the serving loop fails while `main` waits in
the `select`, and a signal is sent only later. -/
def worldServeFailsFirst : World :=
  { dbConnect := .ok { Pool := some { id := 1 } }, engine := engineOf [],
    natsConnect := none,
    listenResult := some (300, some (.other "accept tcp [::]:8080: too many open files")),
    signalAt := some 400, selectAt := 100, pickSignal := true,
    shutdown := none }

/-- Both connections succeed; the serving loop fails first, a signal is
delivered before `main` reaches the `select`, and the `select` picks
`sigCh`. -/
def worldBothReady : World :=
  { dbConnect := .ok { Pool := some { id := 1 } }, engine := engineOf [],
    natsConnect := none,
    listenResult := some (5, some (.other "listen tcp :8080: bind: address already in use")),
    signalAt := some 100, selectAt := 100, pickSignal := true,
    shutdown := none }

/-- The database connects, the first migration attempt fails with
"syntax error". -/
def worldMigrationFails : World :=
  { dbConnect := .ok { Pool := some { id := 1 } },
    engine := engineOf [some (.other "syntax error")],
    natsConnect := none, listenResult := none, signalAt := some 500, selectAt := 100,
    pickSignal := false, shutdown := none }

/-- The call `db.Connect` returns a `DB` whose `Pool` is `nil`; a signal ends
the run. -/
def worldNilPool : World :=
  { dbConnect := .ok { Pool := none }, engine := engineOf [],
    natsConnect := none, listenResult := none, signalAt := some 500, selectAt := 100,
    pickSignal := false, shutdown := none }

/-- The bus connection fails. -/
def worldBusFails : World :=
  { dbConnect := .ok { Pool := some { id := 1 } }, engine := engineOf [],
    natsConnect := some (.other "nats: no servers available for connection"),
    listenResult := none, signalAt := some 500, selectAt := 100,
    pickSignal := false, shutdown := none }

/-- Every connection succeeds, nothing is pending, a signal ends the run and
the shutdown succeeds. -/
def worldClean : World :=
  { dbConnect := .ok { Pool := some { id := 1 } },
    engine := engineOf [some .ErrNoChange],
    natsConnect := none, listenResult := none, signalAt := some 500, selectAt := 100,
    pickSignal := false, shutdown := none }

/-! ## Letter case -/

/-- Two runes that are the same rune, or the two cases of one ASCII letter. -/
def sameLetter (a b : Char) : Prop :=
  a = b ∨ (65 ≤ a.toNat ∧ a.toNat ≤ 90 ∧ b.toNat = a.toNat + 32) ∨
    (65 ≤ b.toNat ∧ b.toNat ≤ 90 ∧ a.toNat = b.toNat + 32)

/-- The strings `s` and `t` differ at most in the case of ASCII letters. -/
def caseVariant (s t : String) : Prop :=
  List.Forall₂ sameLetter s.data t.data

/-- The lower-cased text in the words of the specification, rune by rune:
an ASCII rune by `Char.toLower` of the standard library, a rune above ASCII by
the Unicode tables `uni`. -/
def lowerCased (uni : Char → Char) (s : String) : List Char :=
  s.data.map (fun c => if c.toNat ≤ 127 then c.toLower else uni c)

/-- The rune mapping `unicode.ToUpper`: on ASCII it subtracts `'a' - 'A'`
from the letters `'a'..'z'`; above ASCII it looks the rune up in the Unicode
case tables `uni`. -/
def unicodeToUpper (uni : Char → Char) (r : Char) : Char :=
  if r.toNat ≤ 127 then
    if 97 ≤ r.toNat ∧ r.toNat ≤ 122 then Char.ofNat (r.toNat - 32) else r
  else uni r

/-- The function `strings.ToUpper`, rune by rune. -/
def ToUpper (uni : Char → Char) (s : String) : List Char :=
  s.data.map (unicodeToUpper uni)

/-- The lower-case entries of Go's Unicode tables (`unicode.CaseRanges`) for
the runes of the examples: U+0130 goes to `i`, U+212A (Kelvin sign) goes to
`k`, and U+0131 (dotless i), a lower-case letter, stays.  No other rune above
ASCII occurs in the examples. -/
def goLowerTable (r : Char) : Char :=
  if r.toNat = 0x130 then 'i' else if r.toNat = 0x212A then 'k' else r

/-- The upper-case entries of Go's Unicode tables (`unicode.CaseRanges`) for
the runes of the examples: U+0131 (dotless i) goes to `I` and U+017F (long s)
goes to `S`.  No other rune above ASCII occurs in the examples. -/
def goUpperTable (r : Char) : Char :=
  if r.toNat = 0x131 then 'I' else if r.toNat = 0x17F then 'S' else r

/-- The substrings that classify an error text as lock contention
(migrate.go:119). -/
def lockMarkers : List String := ["timeout", "lock", "can't acquire"]

/-! ## Theorems on `migrate.Up` -/

theorem isLockError_lock_timeout_exceeded (uni : Char → Char) :
    isLockError uni "lock timeout exceeded" = true := by
  rfl

theorem Up_trace_shape (uni : Char → Char) (eng : Engine) (pool : Option Pool) :
    (Up uni eng pool).2 = [] ∨ (Up uni eng pool).2 = [Event.openDB, Event.sqlDBClose] ∨
    ∃ post, (post = [Event.migratorClose, Event.sqlDBClose] ∨
        post = [Event.readVersion, Event.migratorClose, Event.sqlDBClose]) ∧
      ((Up uni eng pool).2 =
          [Event.openDB, Event.readVersion, Event.setLockTimeout, Event.apply 1] ++ post ∨
       (Up uni eng pool).2 =
          [Event.openDB, Event.readVersion, Event.setLockTimeout, Event.apply 1,
            Event.sleep (5 * Second), Event.apply 2] ++ post ∨
       (Up uni eng pool).2 =
          [Event.openDB, Event.readVersion, Event.setLockTimeout, Event.apply 1,
            Event.sleep (5 * Second), Event.apply 2,
            Event.sleep (10 * Second), Event.apply 3] ++ post) := by
  unfold Up
  cases pool with
  | none => simp
  | some p =>
    cases hs : eng.sourceErr with
    | some e => simp
    | none =>
      cases hd : eng.driverErr with
      | some e => simp
      | none =>
        cases hm : eng.migratorErr with
        | some e => simp
        | none =>
          simp only [retryLoop]
          rcases h1 : eng.apply 1 with _ | e1
          · simp
          · by_cases c1 : e1 = GoError.ErrNoChange
            · simp [c1]
            · by_cases l1 : isLockError uni e1.Error = true
              · rcases h2 : eng.apply 2 with _ | e2
                · simp [c1, l1]
                · by_cases c2 : e2 = GoError.ErrNoChange
                  · simp [c1, l1, c2]
                  · by_cases l2 : isLockError uni e2.Error = true
                    · rcases h3 : eng.apply 3 with _ | e3
                      · simp [c1, l1, c2, l2]
                      · by_cases c3 : e3 = GoError.ErrNoChange
                        · simp [c1, l1, c2, l2, c3]
                        · simp [c1, l1, c2, l2, c3]
                    · simp [c1, l1, c2, l2]
              · simp [c1, l1]

theorem Contains_iff_infix (s sub : List Char) : Contains s sub = true ↔ sub <:+: s := by
  simp only [Contains, List.any_eq_true, List.mem_tails, List.isPrefixOf_iff_prefix]
  rw [List.infix_iff_prefix_suffix]
  constructor
  · rintro ⟨t, ht, hp⟩
    exact ⟨t, hp, ht⟩
  · rintro ⟨t, hp, ht⟩
    exact ⟨t, ht, hp⟩

/-- C1. When the first two calls of `m.Up()` fail with the text
"lock timeout exceeded" and the third returns `ErrNoChange`, `Up` returns
`nil`, calls `m.Up()` exactly three times and sleeps exactly 5s, then 10s,
each sleep between two consecutive attempts. -/
theorem Up_lock_twice_then_no_change (uni : Char → Char) (eng : Engine) (p : Pool)
    (hs : eng.sourceErr = none) (hd : eng.driverErr = none) (hm : eng.migratorErr = none)
    (h1 : eng.apply 1 = some (.other "lock timeout exceeded"))
    (h2 : eng.apply 2 = some (.other "lock timeout exceeded"))
    (h3 : eng.apply 3 = some .ErrNoChange) :
    (Up uni eng (some p)).1 = none ∧
    attempts (Up uni eng (some p)).2 = 3 ∧
    waits (Up uni eng (some p)).2 = [5 * Second, 10 * Second] ∧
    (Up uni eng (some p)).2 =
      [Event.openDB, Event.readVersion, Event.setLockTimeout,
        Event.apply 1, Event.sleep (5 * Second), Event.apply 2,
        Event.sleep (10 * Second), Event.apply 3,
        Event.migratorClose, Event.sqlDBClose] := by
  have h : Up uni eng (some p) =
      (none, [Event.openDB, Event.readVersion, Event.setLockTimeout,
        Event.apply 1, Event.sleep (5 * Second), Event.apply 2,
        Event.sleep (10 * Second), Event.apply 3,
        Event.migratorClose, Event.sqlDBClose]) := by
    simp [Up, hs, hd, hm, retryLoop, h1, h2, h3, GoError.Error,
      isLockError_lock_timeout_exceeded]
  rw [h]
  exact ⟨rfl, rfl, rfl, rfl⟩

/-- C2. When the first call of `m.Up()` fails with an error whose text is
not classified as lock contention, `Up` returns exactly that error after one
attempt, without any sleep and without a second attempt. -/
theorem Up_other_error_is_immediate (uni : Char → Char) (eng : Engine) (p : Pool)
    (err : GoError)
    (hs : eng.sourceErr = none) (hd : eng.driverErr = none) (hm : eng.migratorErr = none)
    (h1 : eng.apply 1 = some err) (hne : err ≠ GoError.ErrNoChange)
    (hl : isLockError uni err.Error = false) :
    (Up uni eng (some p)).1 = some err ∧
    attempts (Up uni eng (some p)).2 = 1 ∧
    waits (Up uni eng (some p)).2 = [] ∧
    Event.apply 2 ∉ (Up uni eng (some p)).2 := by
  have h : Up uni eng (some p) =
      (some err, [Event.openDB, Event.readVersion, Event.setLockTimeout,
        Event.apply 1, Event.migratorClose, Event.sqlDBClose]) := by
    simp [Up, hs, hd, hm, retryLoop, h1, hne, hl]
  rw [h]
  exact ⟨rfl, rfl, rfl, by simp⟩

theorem Up_lock_twice_then_no_change_witness :
    (Up id (engineOf [some (.other "lock timeout exceeded"),
        some (.other "lock timeout exceeded"), some .ErrNoChange]) (some ⟨0⟩)).1 = none ∧
    attempts (Up id (engineOf [some (.other "lock timeout exceeded"),
        some (.other "lock timeout exceeded"), some .ErrNoChange]) (some ⟨0⟩)).2 = 3 ∧
    waits (Up id (engineOf [some (.other "lock timeout exceeded"),
        some (.other "lock timeout exceeded"), some .ErrNoChange]) (some ⟨0⟩)).2
      = [5 * Second, 10 * Second] :=
  have h := Up_lock_twice_then_no_change id (engineOf [some (.other "lock timeout exceeded"),
        some (.other "lock timeout exceeded"), some .ErrNoChange]) ⟨0⟩ rfl rfl rfl rfl rfl rfl
  ⟨h.1, h.2.1, h.2.2.1⟩

theorem Up_other_error_is_immediate_witness :
    (Up id (engineOf [some (.other "syntax error")]) (some ⟨0⟩)).1
      = some (.other "syntax error") ∧
    attempts (Up id (engineOf [some (.other "syntax error")]) (some ⟨0⟩)).2 = 1 ∧
    waits (Up id (engineOf [some (.other "syntax error")]) (some ⟨0⟩)).2 = [] :=
  have h := Up_other_error_is_immediate id (engineOf [some (.other "syntax error")]) ⟨0⟩
    (.other "syntax error") rfl rfl rfl rfl (by decide) (by decide)
  ⟨h.1, h.2.1, h.2.2.1⟩

/-- C3. The retry loop of `Up` calls `m.Up()` at most three times; attempt
`k` is attempt 1, or it is attempt 2 or 3 and comes right after a sleep of
`(k-1) * 5s`; every sleep of `Up` is such a sleep, so the total wait is at
most 15s; and when all three attempts fail with lock-contention errors, `Up`
stops after the third attempt and returns the third error. -/
theorem Up_retry_bounds (uni : Char → Char) (eng : Engine) (pool : Option Pool) :
    attempts (Up uni eng pool).2 ≤ 3 ∧
    (∀ k, Event.apply k ∈ (Up uni eng pool).2 →
      k = 1 ∨ ((k = 2 ∨ k = 3) ∧
        [Event.sleep ((k - 1) * 5 * Second), Event.apply k] <:+: (Up uni eng pool).2)) ∧
    (∀ d, Event.sleep d ∈ (Up uni eng pool).2 →
      ∃ k, (k = 2 ∨ k = 3) ∧ d = (k - 1) * 5 * Second ∧
        [Event.sleep d, Event.apply k] <:+: (Up uni eng pool).2) ∧
    (waits (Up uni eng pool).2).sum ≤ 15 * Second ∧
    (∀ p e1 e2 e3, pool = some p →
      eng.sourceErr = none → eng.driverErr = none → eng.migratorErr = none →
      eng.apply 1 = some e1 → eng.apply 2 = some e2 → eng.apply 3 = some e3 →
      e1 ≠ GoError.ErrNoChange → e2 ≠ GoError.ErrNoChange → e3 ≠ GoError.ErrNoChange →
      isLockError uni e1.Error = true → isLockError uni e2.Error = true →
      isLockError uni e3.Error = true →
      (Up uni eng pool).1 = some e3 ∧ attempts (Up uni eng pool).2 = 3 ∧
        (waits (Up uni eng pool).2) = [5 * Second, 10 * Second]) := by
  refine ⟨?_, ?_, ?_, ?_, ?_⟩
  · rcases Up_trace_shape uni eng pool with h | h | ⟨post, rfl | rfl, h | h | h⟩ <;>
      rw [h] <;> decide
  · intro k hk
    rcases Up_trace_shape uni eng pool with h | h | ⟨post, rfl | rfl, h | h | h⟩ <;>
      rw [h] at hk ⊢ <;> simp at hk <;>
      first
        | exact Or.inl hk
        | (rcases hk with rfl | rfl | rfl
           · exact Or.inl rfl
           · exact Or.inr ⟨Or.inl rfl, by decide⟩
           · exact Or.inr ⟨Or.inr rfl, by decide⟩)
        | (rcases hk with rfl | rfl
           · exact Or.inl rfl
           · exact Or.inr ⟨Or.inl rfl, by decide⟩)
  · intro d hd
    rcases Up_trace_shape uni eng pool with h | h | ⟨post, rfl | rfl, h | h | h⟩ <;>
      rw [h] at hd ⊢ <;> simp at hd <;>
      first
        | (rcases hd with rfl | rfl
           · exact ⟨2, Or.inl rfl, rfl, by decide⟩
           · exact ⟨3, Or.inr rfl, rfl, by decide⟩)
        | (subst hd
           exact ⟨2, Or.inl rfl, rfl, by decide⟩)
  · rcases Up_trace_shape uni eng pool with h | h | ⟨post, rfl | rfl, h | h | h⟩ <;>
      rw [h] <;> decide
  · intro p e1 e2 e3 hp hs hd hm h1 h2 h3 n1 n2 n3 l1 l2 l3
    subst hp
    have h : Up uni eng (some p) =
        (some e3, [Event.openDB, Event.readVersion, Event.setLockTimeout,
          Event.apply 1, Event.sleep (5 * Second), Event.apply 2,
          Event.sleep (10 * Second), Event.apply 3,
          Event.migratorClose, Event.sqlDBClose]) := by
      simp [Up, hs, hd, hm, retryLoop, h1, h2, h3, n1, n2, n3, l1, l2]
    rw [h]
    exact ⟨rfl, rfl, rfl⟩

theorem Up_retry_bounds_witness :
    (Up id (engineOf [some (.other "lock timeout exceeded"),
        some (.other "could not obtain LOCK"), some (.other "can't acquire lock")])
      (some ⟨0⟩)).1 = some (.other "can't acquire lock") ∧
    attempts (Up id (engineOf [some (.other "lock timeout exceeded"),
        some (.other "could not obtain LOCK"), some (.other "can't acquire lock")])
      (some ⟨0⟩)).2 = 3 ∧
    waits (Up id (engineOf [some (.other "lock timeout exceeded"),
        some (.other "could not obtain LOCK"), some (.other "can't acquire lock")])
      (some ⟨0⟩)).2 = [5 * Second, 10 * Second] :=
  (Up_retry_bounds id (engineOf [some (.other "lock timeout exceeded"),
        some (.other "could not obtain LOCK"), some (.other "can't acquire lock")])
      (some ⟨0⟩)).2.2.2.2 ⟨0⟩ _ _ _ rfl rfl rfl rfl rfl rfl rfl
      (by decide) (by decide) (by decide) (by decide) (by decide) (by decide)

theorem isLockError_iff (uni : Char → Char) (s : String) :
    isLockError uni s = true ↔
      ∃ sub ∈ lockMarkers, ToLower uni sub <:+: ToLower uni s := by
  simp [isLockError, contains, Contains_iff_infix, lockMarkers, or_assoc]

theorem unicodeToLower_sameLetter (uni : Char → Char) {a b : Char} (h : sameLetter a b) :
    unicodeToLower uni a = unicodeToLower uni b := by
  have key : ∀ x y : Char, 65 ≤ x.toNat → x.toNat ≤ 90 → y.toNat = x.toNat + 32 →
      unicodeToLower uni x = unicodeToLower uni y := by
    intro x y h1 h2 h3
    have hy : y = Char.ofNat (x.toNat + 32) := by rw [← h3, Char.ofNat_toNat]
    have hx : unicodeToLower uni x = Char.ofNat (x.toNat + 32) := by
      unfold unicodeToLower
      rw [if_pos (by omega), if_pos ⟨h1, h2⟩]
    have hy2 : unicodeToLower uni y = y := by
      unfold unicodeToLower
      rw [if_pos (by omega), if_neg (by omega)]
    rw [hx, hy2, hy]
  rcases h with rfl | ⟨h1, h2, h3⟩ | ⟨h1, h2, h3⟩
  · rfl
  · exact key a b h1 h2 h3
  · exact (key b a h1 h2 h3).symm

theorem ToLower_caseVariant (uni : Char → Char) {s t : String} (h : caseVariant s t) :
    ToLower uni s = ToLower uni t := by
  unfold ToLower
  unfold caseVariant at h
  generalize s.data = l₁ at h ⊢
  generalize t.data = l₂ at h ⊢
  induction h with
  | nil => rfl
  | cons hab _ ih => simp only [List.map_cons, unicodeToLower_sameLetter uni hab, ih]

theorem retryLoop_extends (uni : Char → Char) (apply : Nat → Option GoError) (maxRetries : Nat) :
    ∀ (fuel attempt : Nat) (h : maxRetries + 1 - attempt ≤ fuel) (lastErr : Option GoError)
      (tr : List Event), tr <+: (retryLoop uni apply maxRetries fuel attempt h lastErr tr).2 := by
  intro fuel
  induction fuel with
  | zero => intro attempt h lastErr tr; simp [retryLoop]
  | succ n ih =>
    intro attempt h lastErr tr
    have hp : tr <+: (if attempt > 1 then tr ++ [Event.sleep ((attempt - 1) * 5 * Second)]
        else tr) ++ [Event.apply attempt] := by
      split_ifs
      · rw [List.append_assoc]; exact List.prefix_append _ _
      · exact List.prefix_append _ _
    unfold retryLoop
    dsimp only
    generalize (if attempt > 1 then tr ++ [Event.sleep ((attempt - 1) * 5 * Second)]
        else tr) ++ [Event.apply attempt] = tr1 at hp ⊢
    by_cases ha : attempt ≤ maxRetries
    · rw [if_pos ha]
      split
      · exact hp
      · split_ifs
        · exact hp
        · exact hp.trans (ih _ _ _ _)
        · exact hp
    · rw [if_neg ha]

theorem retryLoop_apply_mem (uni : Char → Char) (apply : Nat → Option GoError)
    (maxRetries fuel attempt : Nat) (h : maxRetries + 1 - attempt ≤ fuel)
    (lastErr : Option GoError) (tr : List Event) (ha : attempt ≤ maxRetries) :
    Event.apply attempt ∈ (retryLoop uni apply maxRetries fuel attempt h lastErr tr).2 := by
  cases fuel with
  | zero => omega
  | succ n =>
    have hm : Event.apply attempt ∈ (if attempt > 1 then
        tr ++ [Event.sleep ((attempt - 1) * 5 * Second)] else tr) ++ [Event.apply attempt] := by
      simp
    unfold retryLoop
    rw [if_pos ha]
    dsimp only
    generalize (if attempt > 1 then tr ++ [Event.sleep ((attempt - 1) * 5 * Second)]
        else tr) ++ [Event.apply attempt] = tr1 at hm ⊢
    split
    · exact hm
    · split_ifs
      · exact hm
      · exact (retryLoop_extends uni apply maxRetries _ _ _ _ _).subset hm
      · exact hm

/-- C4, as the code has it. In the retry loop of `Up` (three attempts), a
failed attempt 1 or 2 with error text `s` is followed by a further attempt
exactly when the lower-cased `s` has one of the lower-cased markers "timeout",
"lock", "can't acquire" as a substring; `contains s sub` holds exactly when
the lower-cased `s` has the lower-cased `sub` as a substring; and a text that
differs from `s` only in the case of ASCII letters gets the same decision. -/
theorem retry_iff_lock_text (uni : Char → Char) (apply : Nat → Option GoError)
    (fuel attempt : Nat) (h : 3 + 1 - attempt ≤ fuel) (lastErr : Option GoError)
    (err : GoError) (ha : attempt = 1 ∨ attempt = 2)
    (he : apply attempt = some err) (hne : err ≠ GoError.ErrNoChange) :
    (Event.apply (attempt + 1) ∈ (retryLoop uni apply 3 fuel attempt h lastErr []).2 ↔
      ∃ sub ∈ lockMarkers, lowerCased uni sub <:+: lowerCased uni err.Error) ∧
    (∀ s sub : String, contains uni s sub = true ↔ lowerCased uni sub <:+: lowerCased uni s) ∧
    (∀ t : String, caseVariant err.Error t →
      ∀ apply2 : Nat → Option GoError, apply2 attempt = some (GoError.other t) →
        (Event.apply (attempt + 1) ∈ (retryLoop uni apply2 3 fuel attempt h lastErr []).2 ↔
          Event.apply (attempt + 1) ∈ (retryLoop uni apply 3 fuel attempt h lastErr []).2)) := by
  have main : ∀ (ap : Nat → Option GoError) (e : GoError), ap attempt = some e →
      e ≠ GoError.ErrNoChange →
      (Event.apply (attempt + 1) ∈ (retryLoop uni ap 3 fuel attempt h lastErr []).2 ↔
        isLockError uni e.Error = true) := by
    intro ap e hap hn
    have h3 : attempt < 3 := by omega
    cases fuel with
    | zero => omega
    | succ n =>
      by_cases hl : isLockError uni e.Error = true
      · have hstep : retryLoop uni ap 3 (n + 1) attempt h lastErr [] =
            retryLoop uni ap 3 n (attempt + 1) (by omega) (some e)
              ((if attempt > 1 then [] ++ [Event.sleep ((attempt - 1) * 5 * Second)]
                else []) ++ [Event.apply attempt]) := by
          rw [retryLoop, if_pos (by omega)]
          simp only [hap]
          rw [if_neg hn, if_pos ⟨h3, hl⟩]
        rw [hstep]
        simp only [hl, iff_true]
        exact retryLoop_apply_mem uni ap 3 n (attempt + 1) _ _ _ (by omega)
      · have hstep : retryLoop uni ap 3 (n + 1) attempt h lastErr [] =
            (some e, (if attempt > 1 then [] ++ [Event.sleep ((attempt - 1) * 5 * Second)]
                else []) ++ [Event.apply attempt]) := by
          rw [retryLoop, if_pos (by omega)]
          simp only [hap]
          rw [if_neg hn, if_neg (fun c => hl c.2)]
        rw [hstep]
        simp only [hl, iff_false]
        split_ifs <;> simp
  have hspec : ∀ s : String, ToLower uni s = lowerCased uni s := by
    intro s
    unfold ToLower lowerCased
    apply List.map_congr_left
    intro c _
    simp only [unicodeToLower, Char.toLower, ge_iff_le]
  refine ⟨?_, ?_, ?_⟩
  · rw [main apply err he hne, isLockError_iff]
    simp only [hspec]
  · intro s sub
    rw [← hspec, ← hspec]
    exact Contains_iff_infix _ _
  · intro t ht ap2 hap2
    have hlow : ToLower uni t = ToLower uni err.Error :=
      (ToLower_caseVariant uni ht).symm
    rw [main apply err he hne, main ap2 (GoError.other t) hap2 (by simp),
      isLockError_iff, isLockError_iff]
    simp only [GoError.Error, hlow]

theorem retry_iff_lock_text_witness :
    Event.apply 2 ∈
      (retryLoop id (fun _ => some (.other "LOCK TIMEOUT")) 3 3 1 (by decide) none []).2 ∧
    Event.apply 2 ∉
      (retryLoop id (fun _ => some (.other "syntax error")) 3 3 1 (by decide) none []).2 ∧
    (contains id "pq: Can't Acquire advisory lock" "CAN'T acquire" = true ∧
      ¬ contains id "syntax error" "lock" = true) :=
  ⟨(retry_iff_lock_text id (fun _ => some (.other "LOCK TIMEOUT")) 3 1 (by decide) none
      (.other "LOCK TIMEOUT") (Or.inl rfl) rfl (by decide)).1.mpr
      ⟨"lock", by decide, by decide⟩,
   fun hm => absurd
    ((retry_iff_lock_text id (fun _ => some (.other "syntax error")) 3 1 (by decide) none
      (.other "syntax error") (Or.inl rfl) rfl (by decide)).1.mp hm) (by decide),
   ((retry_iff_lock_text id (fun _ => some (.other "LOCK TIMEOUT")) 3 1 (by decide) none
      (.other "LOCK TIMEOUT") (Or.inl rfl) rfl (by decide)).2.1 _ _).mpr (by decide),
   fun hc => absurd
    (((retry_iff_lock_text id (fun _ => some (.other "LOCK TIMEOUT")) 3 1 (by decide) none
      (.other "LOCK TIMEOUT") (Or.inl rfl) rfl (by decide)).2.1 _ _).mp hc) (by decide)⟩

/-- C4 as stated fails: upper-casing the text "tımeout" (with a dotless
i) by `strings.ToUpper` gives "TIMEOUT", a change of letter case only, and the
retry decision changes from not retried to retried. -/
theorem upper_casing_changes_retry_decision :
    ToUpper goUpperTable "tımeout" = "TIMEOUT".data ∧
    isLockError goLowerTable "tımeout" = false ∧
    isLockError goLowerTable "TIMEOUT" = true ∧
    Event.apply 2 ∉
      (retryLoop goLowerTable (fun _ => some (.other "tımeout")) 3 3 1
        (by decide) none []).2 ∧
    Event.apply 2 ∈
      (retryLoop goLowerTable (fun _ => some (.other "TIMEOUT")) 3 3 1
        (by decide) none []).2 := by
  decide

/-! ## Theorems on `main` -/

theorem Up_trace_events (uni : Char → Char) (eng : Engine) (pool : Option Pool) :
    ∀ e ∈ (Up uni eng pool).2, isMigrationEvent e = true := by
  rcases Up_trace_shape uni eng pool with h | h | ⟨post, rfl | rfl, h | h | h⟩ <;>
    rw [h] <;> simp [isMigrationEvent]

theorem mem_serve_trace (cfg : Config) (w : World) (database : Option DB) (bus : Bool)
    (tr defers : List Event) (e : Event)
    (he : e ∈ (serve cfg w database bus tr defers).trace) :
    e ∈ tr ∨ e ∈ defers ∨ isServeEvent e = true := by
  by_cases hw : workerCondition cfg database = true <;>
    cases hr : selectBranch w <;> cases hs : w.shutdown <;>
    simp [serve, hw, hr, hs, osExit, returnFromMain] at he <;>
    aesop

theorem serve_trace_eq (cfg : Config) (w : World) (database : Option DB) (bus : Bool)
    (tr defers : List Event) :
    ∃ tail, (serve cfg w database bus tr defers).trace =
        tr ++ [Event.apiNew database bus] ++
          (if workerCondition cfg database = true then [Event.workerStart] else []) ++
          [Event.listenStart, Event.sleep (100 * Millisecond)] ++ tail ∧
      ∀ e ∈ tail, e ∈ defers ∨ isShutdownEvent e = true := by
  by_cases hw : workerCondition cfg database = true <;>
    cases hr : selectBranch w <;> cases hs : w.shutdown <;>
    simp [serve, hw, hr, hs, osExit, returnFromMain] <;>
    exact fun a ha => Or.inl ha

theorem serve_extends (cfg : Config) (w : World) (database : Option DB) (bus : Bool)
    (tr defers : List Event) : tr <+: (serve cfg w database bus tr defers).trace := by
  obtain ⟨tail, h, -⟩ := serve_trace_eq cfg w database bus tr defers
  rw [h]
  simp only [List.append_assoc]
  exact List.prefix_append _ _

theorem main_no_url_not_dev (uni : Char → Char) (cfg : Config) (w : World)
    (hdb : cfg.DBURL = "") (henv : cfg.Env ≠ "dev") : main uni cfg w = osExit [] 1 := by
  simp [main, hdb, henv]

theorem main_no_url_dev (uni : Char → Char) (cfg : Config) (w : World)
    (hdb : cfg.DBURL = "") (henv : cfg.Env = "dev") :
    main uni cfg w = connectBus cfg w none [] [] := by
  simp [main, hdb, henv]

theorem main_connect_error (uni : Char → Char) (cfg : Config) (w : World) (err : GoError)
    (hdb : cfg.DBURL ≠ "") (hc : w.dbConnect = .error err) :
    main uni cfg w = osExit [Event.dbConnect] 1 := by
  simp [main, hdb, hc]

theorem main_no_migrate (uni : Char → Char) (cfg : Config) (w : World) (d : DB)
    (hdb : cfg.DBURL ≠ "") (hc : w.dbConnect = .ok d) (ham : cfg.AutoMigrate = false) :
    main uni cfg w = connectBus cfg w (some d) [Event.dbConnect] [Event.dbClose] := by
  simp [main, hdb, hc, ham]

theorem main_migrate_error (uni : Char → Char) (cfg : Config) (w : World) (d : DB)
    (err : GoError)
    (hdb : cfg.DBURL ≠ "") (hc : w.dbConnect = .ok d) (ham : cfg.AutoMigrate = true)
    (hu : (Up uni w.engine d.Pool).1 = some err) :
    main uni cfg w =
      osExit ([Event.dbConnect, Event.migrateUp] ++ (Up uni w.engine d.Pool).2) 1 := by
  simp only [main, hdb, hc, ham, if_false, if_true]
  rcases hup : Up uni w.engine d.Pool with ⟨e, mtr⟩
  rw [hup] at hu
  simp only at hu
  subst hu
  simp

theorem main_migrate_ok (uni : Char → Char) (cfg : Config) (w : World) (d : DB)
    (hdb : cfg.DBURL ≠ "") (hc : w.dbConnect = .ok d) (ham : cfg.AutoMigrate = true)
    (hu : (Up uni w.engine d.Pool).1 = none) :
    main uni cfg w =
      connectBus cfg w (some d) ([Event.dbConnect, Event.migrateUp] ++
        (Up uni w.engine d.Pool).2) [Event.dbClose] := by
  simp only [main, hdb, hc, ham, if_false, if_true]
  rcases hup : Up uni w.engine d.Pool with ⟨e, mtr⟩
  rw [hup] at hu
  simp only at hu
  subst hu
  simp

theorem Up_trace_boot (uni : Char → Char) (eng : Engine) (pool : Option Pool) :
    ∀ e ∈ [Event.dbConnect, Event.migrateUp] ++ (Up uni eng pool).2, isBootEvent e = true := by
  intro e he
  simp only [List.cons_append, List.nil_append, List.mem_cons] at he
  rcases he with rfl | rfl | he
  · rfl
  · rfl
  · have := Up_trace_events uni eng pool e he
    cases e <;> simp_all [isMigrationEvent]

/-- Every run of `main` either ends in `os.Exit(1)` before `api.New`, having
produced boot events only, or goes on to `serve` with boot events behind it
and only `busClose` and `dbClose` deferred. -/
theorem main_cases (uni : Char → Char) (cfg : Config) (w : World) :
    (∃ pre, main uni cfg w = osExit pre 1 ∧ ∀ e ∈ pre, isBootEvent e = true) ∨
    (∃ database bus pre defers, main uni cfg w = serve cfg w database bus pre defers ∧
      (∀ e ∈ pre, isBootEvent e = true) ∧
      (∀ e ∈ defers, e = Event.busClose ∨ e = Event.dbClose)) := by
  have hbus : ∀ (database : Option DB) (tr defers : List Event),
      (∀ e ∈ tr, isBootEvent e = true) →
      (∀ e ∈ defers, e = Event.busClose ∨ e = Event.dbClose) →
      (∃ pre, connectBus cfg w database tr defers = osExit pre 1 ∧
        ∀ e ∈ pre, isBootEvent e = true) ∨
      (∃ database2 bus pre defers2,
        connectBus cfg w database tr defers = serve cfg w database2 bus pre defers2 ∧
        (∀ e ∈ pre, isBootEvent e = true) ∧
        (∀ e ∈ defers2, e = Event.busClose ∨ e = Event.dbClose)) := by
    intro database tr defers htr hdef
    unfold connectBus
    by_cases hn : cfg.NATSURL = ""
    · rw [if_neg (by simpa using hn)]
      exact Or.inr ⟨database, false, tr, defers, rfl, htr, hdef⟩
    · rw [if_pos hn]
      cases hc : w.natsConnect with
      | some err =>
        refine Or.inl ⟨tr ++ [Event.natsConnect], rfl, ?_⟩
        intro e he
        rcases List.mem_append.mp he with h | h
        · exact htr e h
        · simp at h; subst h; rfl
      | none =>
        refine Or.inr ⟨database, true, tr ++ [Event.natsConnect], Event.busClose :: defers,
          rfl, ?_, ?_⟩
        · intro e he
          rcases List.mem_append.mp he with h | h
          · exact htr e h
          · simp at h; subst h; rfl
        · intro e he
          rcases List.mem_cons.mp he with h | h
          · exact Or.inl h
          · exact hdef e h
  by_cases hdb : cfg.DBURL = ""
  · by_cases henv : cfg.Env = "dev"
    · rw [main_no_url_dev uni cfg w hdb henv]
      exact hbus none [] [] (by simp) (by simp)
    · rw [main_no_url_not_dev uni cfg w hdb henv]
      exact Or.inl ⟨[], rfl, by simp⟩
  · cases hc : w.dbConnect with
    | error err =>
      rw [main_connect_error uni cfg w err hdb hc]
      exact Or.inl ⟨[Event.dbConnect], rfl, by simp⟩
    | ok d =>
      cases ham : cfg.AutoMigrate with
      | false =>
        rw [main_no_migrate uni cfg w d hdb hc ham]
        exact hbus (some d) [Event.dbConnect] [Event.dbClose] (by simp) (by simp)
      | true =>
        cases hu : (Up uni w.engine d.Pool).1 with
        | some err =>
          rw [main_migrate_error uni cfg w d err hdb hc ham hu]
          exact Or.inl ⟨_, rfl, Up_trace_boot uni w.engine d.Pool⟩
        | none =>
          rw [main_migrate_ok uni cfg w d hdb hc ham hu]
          exact hbus (some d) _ [Event.dbClose] (Up_trace_boot uni w.engine d.Pool) (by simp)

theorem serve_served (cfg : Config) (w : World) (database : Option DB) (bus : Bool)
    (tr defers : List Event) (err : Option GoError)
    (hr : selectBranch w = .served err) :
    serve cfg w database bus tr defers =
      osExit (tr ++ [Event.apiNew database bus] ++
        (if workerCondition cfg database = true then [Event.workerStart] else []) ++
        [Event.listenStart, Event.sleep (100 * Millisecond)] ++ [Event.serverExited err]) 1 := by
  by_cases hw : workerCondition cfg database = true <;> simp [serve, hw, hr, osExit]

theorem workerCondition_iff (cfg : Config) (database : Option DB) :
    workerCondition cfg database = true ↔
      cfg.NATSURL = "" ∧ ∃ d p, database = some d ∧ d.Pool = some p := by
  unfold workerCondition
  cases database with
  | none => simp
  | some d =>
    cases hp : d.Pool with
    | none => simp [hp]
    | some p => simp [hp]

theorem selectBranch_served (w : World) (te : Nat) (err : Option GoError)
    (hs : w.listenResult = some (te, err))
    (hsig : ∀ ts, w.signalAt = some ts → te < ts ∧ w.selectAt < ts) :
    selectBranch w = .served err := by
  unfold selectBranch
  rw [hs]
  cases hg : w.signalAt with
  | none => rfl
  | some ts =>
    obtain ⟨h1, h2⟩ := hsig ts hg
    have hnow : ¬ ts ≤ max w.selectAt (min te ts) := by
      rw [Nat.min_eq_left (Nat.le_of_lt h1)]
      intro hle
      rcases Nat.le_total w.selectAt te with h | h
      · rw [Nat.max_eq_right h] at hle
        omega
      · rw [Nat.max_eq_left h] at hle
        omega
    simp only [hnow, and_false, if_false]

/-- C5, as the code has it. In a run that reaches the serving loop, when the
result of `app.Listen` arrives on `errCh` and every termination signal, if
there is one, is delivered only after that result and after `main` has
started to wait in the `select`, then `main` takes the `errCh` branch with
that result and never the signal branch, does not call `api.Shutdown`, and
the process ends with exit code 1. -/
theorem serve_error_exits_without_shutdown (uni : Char → Char) (cfg : Config) (w : World)
    (te : Nat) (err : Option GoError)
    (hl : Event.listenStart ∈ (main uni cfg w).trace)
    (hs : w.listenResult = some (te, err))
    (hsig : ∀ ts, w.signalAt = some ts → te < ts ∧ w.selectAt < ts) :
    (main uni cfg w).exit = some 1 ∧
    Event.serverExited err ∈ (main uni cfg w).trace ∧
    Event.signalReceived ∉ (main uni cfg w).trace ∧
    ∀ t, Event.apiShutdown t ∉ (main uni cfg w).trace := by
  have hr := selectBranch_served w te err hs hsig
  rcases main_cases uni cfg w with ⟨pre, h, hpre⟩ | ⟨database, bus, pre, defers, h, hpre, -⟩
  · rw [h] at hl
    have := hpre _ hl
    simp [isMigrationEvent] at this
  · rw [h, serve_served cfg w database bus pre defers err hr]
    have h1 : Event.signalReceived ∉ pre := fun hm => by
      have := hpre _ hm
      simp [isMigrationEvent] at this
    have h2 : ∀ t, Event.apiShutdown t ∉ pre := fun t hm => by
      have := hpre _ hm
      simp [isMigrationEvent] at this
    refine ⟨rfl, ?_, ?_, ?_⟩
    · simp [osExit]
    · by_cases hw : workerCondition cfg database = true <;> simp [osExit, hw, h1]
    · intro t
      by_cases hw : workerCondition cfg database = true <;> simp [osExit, hw, h2 t]

theorem serve_error_exits_without_shutdown_witness :
    (main id cfgProdBus worldServeFailsFirst).exit = some 1 ∧
    Event.serverExited (some (.other "accept tcp [::]:8080: too many open files")) ∈
      (main id cfgProdBus worldServeFailsFirst).trace ∧
    Event.signalReceived ∉ (main id cfgProdBus worldServeFailsFirst).trace ∧
    Event.apiShutdown (5 * Second) ∉ (main id cfgProdBus worldServeFailsFirst).trace :=
  have h := serve_error_exits_without_shutdown id cfgProdBus worldServeFailsFirst 300
    (some (.other "accept tcp [::]:8080: too many open files")) (by decide) rfl
    (fun ts hts => by
      have h400 : ts = 400 := (Option.some.inj hts).symm
      subst h400
      exact ⟨by decide, by decide⟩)
  ⟨h.1, h.2.1, h.2.2.1, h.2.2.2 _⟩

/-- A result of `app.Listen` that arrives before the signal does not settle
the branch: when both values are in their channels as `main` reaches the
`select`, the signal branch can be taken, `api.Shutdown` is called and the
deferred closes run. -/
theorem both_ready_signal_branch :
    main id cfgProdBus worldBothReady =
      { trace := [Event.dbConnect, Event.natsConnect,
          Event.apiNew (some { Pool := some { id := 1 } }) true,
          Event.listenStart, Event.sleep (100 * Millisecond), Event.signalReceived,
          Event.apiShutdown (5 * Second), Event.cancelShutdownCtx, Event.busClose,
          Event.dbClose],
        exit := some 0 } := by
  decide

/-- C5 as stated fails: with both connections open and the serving loop
failing before any signal, `main` ends without calling `api.Shutdown` and
without closing the bus or the database. -/
theorem serve_error_no_shutdown_no_release :
    Event.listenStart ∈ (main id cfgProdBus worldServeFails).trace ∧
    Event.dbConnect ∈ (main id cfgProdBus worldServeFails).trace ∧
    Event.natsConnect ∈ (main id cfgProdBus worldServeFails).trace ∧
    Event.apiShutdown (5 * Second) ∉ (main id cfgProdBus worldServeFails).trace ∧
    Event.busClose ∉ (main id cfgProdBus worldServeFails).trace ∧
    Event.dbClose ∉ (main id cfgProdBus worldServeFails).trace ∧
    (main id cfgProdBus worldServeFails).exit = some 1 := by
  decide

/-- C6 at a failing input: the database connects, the migration fails with
"syntax error", and the process ends with code 1 without `database.Close()`
ever running, although it was deferred. -/
theorem migration_failure_skips_db_close :
    main id cfgProdMigrate worldMigrationFails =
      { trace := [Event.dbConnect, Event.migrateUp, Event.openDB, Event.readVersion,
          Event.setLockTimeout, Event.apply 1, Event.migratorClose, Event.sqlDBClose],
        exit := some 1 } ∧
    Event.dbClose ∉ (main id cfgProdMigrate worldMigrationFails).trace := by
  decide

/-- C7, as the code has it. In every run that reaches `api.New` with the
handle `database`, the background worker is started exactly when no event-bus
URL is configured and `database` is a handle whose connection pool is not
`nil`; and when an event-bus URL is configured the worker never starts. -/
theorem worker_started_iff (uni : Char → Char) (cfg : Config) (w : World) :
    (∀ database bus, Event.apiNew database bus ∈ (main uni cfg w).trace →
      (Event.workerStart ∈ (main uni cfg w).trace ↔
        cfg.NATSURL = "" ∧ ∃ d p, database = some d ∧ d.Pool = some p)) ∧
    (cfg.NATSURL ≠ "" → Event.workerStart ∉ (main uni cfg w).trace) := by
  rcases main_cases uni cfg w with ⟨pre, h, hpre⟩ | ⟨db2, bus2, pre, defers, h, hpre, hdef⟩
  · have hno : ∀ e, isBootEvent e = false → e ∉ (main uni cfg w).trace := by
      intro e he hm
      rw [h] at hm
      have := hpre _ hm
      rw [he] at this
      exact Bool.noConfusion this
    refine ⟨fun database bus hm => ?_, fun _ => hno _ rfl⟩
    exact absurd hm (hno _ rfl)
  · obtain ⟨tail, ht, htail⟩ := serve_trace_eq cfg w db2 bus2 pre defers
    have hpre2 : ∀ e, isBootEvent e = false → e ∉ pre := by
      intro e he hm
      have := hpre _ hm
      rw [he] at this
      exact Bool.noConfusion this
    have htail2 : ∀ e, isShutdownEvent e = false → e ≠ Event.busClose →
        e ≠ Event.dbClose → e ∉ tail := by
      intro e he hb hd hm
      rcases htail e hm with hdf | hsd
      · rcases hdef e hdf with h1 | h1
        · exact hb h1
        · exact hd h1
      · rw [he] at hsd
        exact Bool.noConfusion hsd
    have hworker : Event.workerStart ∈ (main uni cfg w).trace ↔
        workerCondition cfg db2 = true := by
      rw [h, ht]
      have h1 := hpre2 Event.workerStart rfl
      have h2 := htail2 Event.workerStart rfl (by simp) (by simp)
      by_cases hw : workerCondition cfg db2 = true <;> simp [hw, h1, h2]
    refine ⟨fun database bus hm => ?_, fun hn => ?_⟩
    · have hdb : database = db2 := by
        rw [h, ht] at hm
        have h1 := hpre2 (Event.apiNew database bus) rfl
        have h2 := htail2 (Event.apiNew database bus) rfl (by simp) (by simp)
        by_cases hw : workerCondition cfg db2 = true <;> simp [hw, h1, h2] at hm <;>
          exact hm.1
      rw [hworker, hdb, workerCondition_iff]
    · rw [hworker, workerCondition_iff]
      exact fun hc => hn hc.1

theorem worker_started_iff_witness :
    (Event.workerStart ∈ (main id cfgProdMigrate worldClean).trace ↔
      cfgProdMigrate.NATSURL = "" ∧
        ∃ d p, some (DB.mk (some (Pool.mk 1))) = some d ∧ d.Pool = some p) ∧
    Event.workerStart ∉ (main id cfgProdBus worldClean).trace :=
  ⟨(worker_started_iff id cfgProdMigrate worldClean).1 _ false (by decide),
   (worker_started_iff id cfgProdBus worldClean).2 (by decide)⟩

/-- C7 as stated fails: no event-bus URL is configured and `main` holds a
database handle (`database != nil`, passed to `api.New`), yet the worker is
not started, because the handle's pool is `nil`. -/
theorem worker_not_started_with_nil_pool :
    cfgProdPlain.NATSURL = "" ∧
    Event.apiNew (some { Pool := none }) false ∈ (main id cfgProdPlain worldNilPool).trace ∧
    Event.workerStart ∉ (main id cfgProdPlain worldNilPool).trace := by
  decide

/-- C8, as the code has it. With an empty database URL in the "dev"
environment main reaches the serving loop without database handle and without
worker, provided the bus connection does not fail (no bus URL is configured
or `natsbus.Connect` succeeds). -/
theorem dev_without_db_reaches_serving (uni : Char → Char) (cfg : Config) (w : World)
    (hdb : cfg.DBURL = "") (henv : cfg.Env = "dev")
    (hbus : cfg.NATSURL = "" ∨ w.natsConnect = none) :
    Event.listenStart ∈ (main uni cfg w).trace ∧
    (∃ bus, Event.apiNew none bus ∈ (main uni cfg w).trace) ∧
    (∀ d bus, Event.apiNew (some d) bus ∉ (main uni cfg w).trace) ∧
    Event.dbConnect ∉ (main uni cfg w).trace ∧
    Event.migrateUp ∉ (main uni cfg w).trace ∧
    Event.workerStart ∉ (main uni cfg w).trace := by
  have hw : workerCondition cfg none = false := by simp [workerCondition]
  have key : ∃ bus pre defers, main uni cfg w = serve cfg w none bus pre defers ∧
      (pre = [] ∨ pre = [Event.natsConnect]) ∧
      (defers = [] ∨ defers = [Event.busClose]) := by
    rw [main_no_url_dev uni cfg w hdb henv]
    unfold connectBus
    by_cases hn : cfg.NATSURL = ""
    · rw [if_neg (by simpa using hn)]
      exact ⟨false, [], [], rfl, Or.inl rfl, Or.inl rfl⟩
    · rw [if_pos hn]
      rcases hbus with hb | hb
      · exact absurd hb hn
      · rw [hb]
        exact ⟨true, [Event.natsConnect], [Event.busClose], rfl, Or.inr rfl, Or.inr rfl⟩
  obtain ⟨bus, pre, defers, h, hpre, hdef⟩ := key
  obtain ⟨tail, ht, htail⟩ := serve_trace_eq cfg w none bus pre defers
  have htail2 : ∀ e, isShutdownEvent e = false → e ≠ Event.busClose → e ∉ tail := by
    intro e he hb hm
    rcases htail e hm with hdf | hsd
    · rcases hdef with rfl | rfl
      · simp at hdf
      · simp at hdf
        exact hb hdf
    · rw [he] at hsd
      exact Bool.noConfusion hsd
  rw [h, ht]
  simp only [hw, Bool.false_eq_true, if_false, List.append_nil]
  refine ⟨by simp, ⟨bus, by simp⟩, ?_, ?_, ?_, ?_⟩
  · intro d b
    have h2 := htail2 (Event.apiNew (some d) b) rfl (by simp)
    rcases hpre with rfl | rfl <;> simp [h2]
  · have h2 := htail2 Event.dbConnect rfl (by simp)
    rcases hpre with rfl | rfl <;> simp [h2]
  · have h2 := htail2 Event.migrateUp rfl (by simp)
    rcases hpre with rfl | rfl <;> simp [h2]
  · have h2 := htail2 Event.workerStart rfl (by simp)
    rcases hpre with rfl | rfl <;> simp [h2]

theorem dev_without_db_reaches_serving_witness :
    Event.listenStart ∈ (main id cfgDevBus worldClean).trace ∧
    Event.dbConnect ∉ (main id cfgDevBus worldClean).trace ∧
    Event.workerStart ∉ (main id cfgDevBus worldClean).trace :=
  have h := dev_without_db_reaches_serving id cfgDevBus worldClean rfl rfl (Or.inr rfl)
  ⟨h.1, h.2.2.2.1, h.2.2.2.2.2⟩

/-- C8 as stated fails: with an empty database URL in the "dev" environment
and a bus URL configured, a failing bus connection ends the process with code
1 before the serving loop is started. -/
theorem dev_without_db_bus_failure_exits :
    cfgDevBus.DBURL = "" ∧ cfgDevBus.Env = "dev" ∧
    Event.listenStart ∉ (main id cfgDevBus worldBusFails).trace ∧
    (main id cfgDevBus worldBusFails).exit = some 1 := by
  decide

/-- C9. With an empty database URL outside the "dev" environment main ends
with exit code 1 before anything else happens: no database connection, no
call of `migrate.Up`, no bus connection, no worker, no serving loop. -/
theorem no_db_url_outside_dev_exits (uni : Char → Char) (cfg : Config) (w : World)
    (hdb : cfg.DBURL = "") (henv : cfg.Env ≠ "dev") :
    (main uni cfg w).exit = some 1 ∧
    (main uni cfg w).trace = [] ∧
    Event.dbConnect ∉ (main uni cfg w).trace ∧
    Event.migrateUp ∉ (main uni cfg w).trace ∧
    Event.natsConnect ∉ (main uni cfg w).trace ∧
    Event.workerStart ∉ (main uni cfg w).trace ∧
    Event.listenStart ∉ (main uni cfg w).trace := by
  rw [main_no_url_not_dev uni cfg w hdb henv]
  simp [osExit]

theorem no_db_url_outside_dev_exits_witness :
    (main id cfgProdNoDB worldClean).exit = some 1 ∧
    (main id cfgProdNoDB worldClean).trace = [] :=
  have h := no_db_url_outside_dev_exits id cfgProdNoDB worldClean rfl (by decide)
  ⟨h.1, h.2.1⟩

theorem mem_connectBus_trace (cfg : Config) (w : World) (database : Option DB)
    (tr defers : List Event) (e : Event)
    (he : e ∈ (connectBus cfg w database tr defers).trace) :
    e ∈ tr ∨ e ∈ defers ∨ e = Event.natsConnect ∨ e = Event.busClose ∨
      isServeEvent e = true := by
  unfold connectBus at he
  by_cases hn : cfg.NATSURL = ""
  · rw [if_neg (by simpa using hn)] at he
    rcases mem_serve_trace cfg w database false tr defers e he with h | h | h
    · exact Or.inl h
    · exact Or.inr (Or.inl h)
    · exact Or.inr (Or.inr (Or.inr (Or.inr h)))
  · rw [if_pos hn] at he
    cases hc : w.natsConnect with
    | some err =>
      rw [hc] at he
      simp only [osExit, List.mem_append, List.mem_singleton] at he
      rcases he with h | h
      · exact Or.inl h
      · exact Or.inr (Or.inr (Or.inl h))
    | none =>
      rw [hc] at he
      rcases mem_serve_trace cfg w database true _ _ e he with h | h | h
      · rcases List.mem_append.mp h with h | h
        · exact Or.inl h
        · exact Or.inr (Or.inr (Or.inl (List.mem_singleton.mp h)))
      · rcases List.mem_cons.mp h with h | h
        · exact Or.inr (Or.inr (Or.inr (Or.inl h)))
        · exact Or.inr (Or.inl h)
      · exact Or.inr (Or.inr (Or.inr (Or.inr h)))

theorem connectBus_extends (cfg : Config) (w : World) (database : Option DB)
    (tr defers : List Event) : tr <+: (connectBus cfg w database tr defers).trace := by
  unfold connectBus
  by_cases hn : cfg.NATSURL = ""
  · rw [if_neg (by simpa using hn)]
    exact serve_extends _ _ _ _ _ _
  · rw [if_pos hn]
    cases hc : w.natsConnect with
    | some err => exact List.prefix_append _ _
    | none => exact (List.prefix_append _ _).trans (serve_extends _ _ _ _ _ _)

/-- C10. With the auto-migrate flag off `main` never calls `migrate.Up`; and
whenever `main` calls `migrate.Up`, the flag is on, a database URL is set,
`db.Connect` has succeeded, and the call comes right after `db.Connect`. -/
theorem migrate_only_when_enabled (uni : Char → Char) (cfg : Config) (w : World) :
    (cfg.AutoMigrate = false → Event.migrateUp ∉ (main uni cfg w).trace) ∧
    (Event.migrateUp ∈ (main uni cfg w).trace →
      cfg.AutoMigrate = true ∧ cfg.DBURL ≠ "" ∧ ∃ d, w.dbConnect = .ok d ∧
        [Event.dbConnect, Event.migrateUp] <+: (main uni cfg w).trace) := by
  have hno : ∀ (database : Option DB) (tr defers : List Event),
      Event.migrateUp ∉ tr → Event.migrateUp ∉ defers →
      Event.migrateUp ∉ (connectBus cfg w database tr defers).trace := by
    intro database tr defers h1 h2 hm
    rcases mem_connectBus_trace cfg w database tr defers _ hm with h | h | h | h | h
    · exact h1 h
    · exact h2 h
    · exact Event.noConfusion h
    · exact Event.noConfusion h
    · simp at h
  have hoff : cfg.AutoMigrate = false → Event.migrateUp ∉ (main uni cfg w).trace := by
    intro ham
    by_cases hdb : cfg.DBURL = ""
    · by_cases henv : cfg.Env = "dev"
      · rw [main_no_url_dev uni cfg w hdb henv]
        exact hno none [] [] (by simp) (by simp)
      · rw [main_no_url_not_dev uni cfg w hdb henv]
        simp [osExit]
    · cases hc : w.dbConnect with
      | error err =>
        rw [main_connect_error uni cfg w err hdb hc]
        simp [osExit]
      | ok d =>
        rw [main_no_migrate uni cfg w d hdb hc ham]
        exact hno (some d) _ _ (by simp) (by simp)
  refine ⟨hoff, fun hm => ?_⟩
  have ham : cfg.AutoMigrate = true := by
    cases h : cfg.AutoMigrate with
    | false => exact absurd hm (hoff h)
    | true => rfl
  by_cases hdb : cfg.DBURL = ""
  · exfalso
    by_cases henv : cfg.Env = "dev"
    · rw [main_no_url_dev uni cfg w hdb henv] at hm
      exact hno none [] [] (by simp) (by simp) hm
    · rw [main_no_url_not_dev uni cfg w hdb henv] at hm
      simp [osExit] at hm
  · refine ⟨ham, hdb, ?_⟩
    cases hc : w.dbConnect with
    | error err =>
      rw [main_connect_error uni cfg w err hdb hc] at hm
      simp [osExit] at hm
    | ok d =>
      refine ⟨d, rfl, ?_⟩
      cases hu : (Up uni w.engine d.Pool).1 with
      | some err =>
        rw [main_migrate_error uni cfg w d err hdb hc ham hu]
        exact List.prefix_append _ _
      | none =>
        rw [main_migrate_ok uni cfg w d hdb hc ham hu]
        exact (List.prefix_append _ _).trans (connectBus_extends _ _ _ _ _)

theorem migrate_only_when_enabled_witness :
    Event.migrateUp ∉ (main id cfgProdPlain worldClean).trace ∧
    [Event.dbConnect, Event.migrateUp] <+: (main id cfgProdMigrate worldClean).trace :=
  ⟨(migrate_only_when_enabled id cfgProdPlain worldClean).1 rfl,
   match (migrate_only_when_enabled id cfgProdMigrate worldClean).2 (by decide) with
   | ⟨_, _, _, _, h⟩ => h⟩

theorem connectBus_clean (cfg : Config) (w : World) (database : Option DB)
    (tr defers : List Event) (h0 : (connectBus cfg w database tr defers).exit = some 0) :
    ∃ mid, (connectBus cfg w database tr defers).trace =
        tr ++ mid ++ [Event.cancelShutdownCtx] ++
          (if Event.natsConnect ∈ mid then [Event.busClose] else []) ++ defers ∧
      Event.busClose ∉ mid ∧ Event.dbClose ∉ mid ∧ Event.dbConnect ∉ mid := by
  refine ⟨(if cfg.NATSURL ≠ "" then [Event.natsConnect] else []) ++
    [Event.apiNew database (decide (cfg.NATSURL ≠ ""))] ++
    (if workerCondition cfg database = true then [Event.workerStart] else []) ++
    [Event.listenStart, Event.sleep (100 * Millisecond), Event.signalReceived,
      Event.apiShutdown (5 * Second)], ?_, ?_, ?_, ?_⟩
  · by_cases hn : cfg.NATSURL = "" <;>
      by_cases hw : workerCondition cfg database = true <;>
      cases hc : w.natsConnect <;> cases hr : selectBranch w <;> cases hs : w.shutdown <;>
      simp [connectBus, serve, osExit, returnFromMain, hn, hw, hc, hr, hs] at h0 ⊢
  · by_cases hn : cfg.NATSURL = "" <;>
      by_cases hw : workerCondition cfg database = true <;> simp [hn, hw]
  · by_cases hn : cfg.NATSURL = "" <;>
      by_cases hw : workerCondition cfg database = true <;> simp [hn, hw]
  · by_cases hn : cfg.NATSURL = "" <;>
      by_cases hw : workerCondition cfg database = true <;> simp [hn, hw]

/-- When `main` returns (exit code 0), its trace ends with the deferred
calls: the bus is closed if and only if it was connected, then the database
is closed if and only if it was connected, and no close happens earlier. -/
theorem clean_return_releases (uni : Char → Char) (cfg : Config) (w : World)
    (h0 : (main uni cfg w).exit = some 0) :
    ∃ body, (main uni cfg w).trace =
        body ++ [Event.cancelShutdownCtx] ++
          (if Event.natsConnect ∈ body then [Event.busClose] else []) ++
          (if Event.dbConnect ∈ body then [Event.dbClose] else []) ∧
      Event.busClose ∉ body ∧ Event.dbClose ∉ body := by
  have hU : ∀ e, isMigrationEvent e = false → ∀ pool, e ∉ (Up uni w.engine pool).2 := by
    intro e he pool hm
    have := Up_trace_events uni w.engine pool e hm
    rw [he] at this
    exact Bool.noConfusion this
  by_cases hdb : cfg.DBURL = ""
  · by_cases henv : cfg.Env = "dev"
    · rw [main_no_url_dev uni cfg w hdb henv] at h0 ⊢
      obtain ⟨mid, ht, h1, h2, h3⟩ := connectBus_clean cfg w none [] [] h0
      refine ⟨mid, ?_, h1, h2⟩
      rw [ht]
      simp [h3]
    · rw [main_no_url_not_dev uni cfg w hdb henv] at h0
      simp [osExit] at h0
  · cases hc : w.dbConnect with
    | error err =>
      rw [main_connect_error uni cfg w err hdb hc] at h0
      simp [osExit] at h0
    | ok d =>
      cases ham : cfg.AutoMigrate with
      | false =>
        rw [main_no_migrate uni cfg w d hdb hc ham] at h0 ⊢
        obtain ⟨mid, ht, h1, h2, h3⟩ := connectBus_clean cfg w (some d) _ _ h0
        refine ⟨[Event.dbConnect] ++ mid, ?_, by simp [h1], by simp [h2]⟩
        rw [ht]
        simp
      | true =>
        cases hu : (Up uni w.engine d.Pool).1 with
        | some err =>
          rw [main_migrate_error uni cfg w d err hdb hc ham hu] at h0
          simp [osExit] at h0
        | none =>
          rw [main_migrate_ok uni cfg w d hdb hc ham hu] at h0 ⊢
          obtain ⟨mid, ht, h1, h2, h3⟩ := connectBus_clean cfg w (some d) _ _ h0
          have u1 := hU Event.natsConnect rfl d.Pool
          have u2 := hU Event.busClose rfl d.Pool
          have u3 := hU Event.dbClose rfl d.Pool
          refine ⟨[Event.dbConnect, Event.migrateUp] ++ (Up uni w.engine d.Pool).2 ++ mid,
            ?_, by simp [h1, u2], by simp [h2, u3]⟩
          rw [ht]
          simp [u1]

end Grainlify
